import Mathlib

/-!
Shallow embedding of the MachineHealthCheck controller
(`controllers/machinehealthcheck_controller.go`) of rancher/cluster-api,
together with proofs about its reconciliation pass, event routing,
selector matching and cluster-watch registry.

Durations and timestamps are modelled as `Int` nanoseconds (Go's
`time.Duration` / `time.Time` arithmetic at the granularity the code uses).
Labels and label maps are association lists.  Fallible external calls
(client construction, REST config, watch start, object fetches, patching)
are injected as environment fields recording their outcome, and the data
the cached client would return is an explicit store.
-/

namespace MHC

/-- Namespaced identity of an object (`types.NamespacedName`). -/
structure NamespacedName where
  ns : String
  name : String
deriving DecidableEq, Repr

/-- Object metadata: namespace, name and labels, as used by the controller. -/
structure ObjectMeta where
  ns : String
  name : String
  labels : List (String × String)
deriving DecidableEq, Repr

/-- Lookup of a label value in a label map (`labels.Set` access). -/
def labelGet (ls : List (String × String)) (key : String) : Option String :=
  (ls.find? (fun p => p.1 == key)).map (fun p => p.2)

/-- Whether a label map carries a key (`Labels.Has`). -/
def labelHas (ls : List (String × String)) (key : String) : Bool :=
  (labelGet ls key).isSome

/-- Operators of a `metav1.LabelSelectorRequirement`; `opUnknown` stands for
any operator string outside the four valid ones. -/
inductive LabelSelectorOperator
  | opIn
  | opNotIn
  | opExistsOp
  | opDoesNotExistOp
  | opUnknown
deriving DecidableEq, Repr

/-- One entry of `matchExpressions` in a `metav1.LabelSelector`. -/
structure LabelSelectorRequirement where
  key : String
  op : LabelSelectorOperator
  values : List String
deriving DecidableEq, Repr

/-- The `metav1.LabelSelector` carried by a MachineHealthCheck spec. -/
structure LabelSelector where
  matchLabels : List (String × String)
  matchExpressions : List LabelSelectorRequirement
deriving DecidableEq, Repr

/-- A validated requirement of a parsed selector (`labels.Requirement`). -/
structure Requirement where
  key : String
  op : LabelSelectorOperator
  values : List String
deriving DecidableEq, Repr

/-- Validation step of `labels.NewRequirement`: `In`/`NotIn` need at least one
value, `Exists`/`DoesNotExist` need none, an unknown operator is an error. -/
def newRequirement (key : String) (op : LabelSelectorOperator)
    (values : List String) : Option Requirement :=
  match op with
  | .opIn => if values.isEmpty then none else some ⟨key, op, values⟩
  | .opNotIn => if values.isEmpty then none else some ⟨key, op, values⟩
  | .opExistsOp => if values.isEmpty then some ⟨key, op, values⟩ else none
  | .opDoesNotExistOp => if values.isEmpty then some ⟨key, op, values⟩ else none
  | .opUnknown => none

/-- Parsing of a `metav1.LabelSelector` into a list of requirements
(`metav1.LabelSelectorAsSelector`): every `matchLabels` pair becomes an
equality (here a one-value `In`) requirement, every expression is validated;
any invalid expression fails the whole parse.  A selector with no
`matchLabels` and no `matchExpressions` parses to the empty requirement
list (`labels.Everything()`). -/
def labelSelectorAsSelector (ps : LabelSelector) : Option (List Requirement) :=
  do
    let fromLabels ← ps.matchLabels.mapM
      (fun p => newRequirement p.1 .opIn [p.2])
    let fromExprs ← ps.matchExpressions.mapM
      (fun e => newRequirement e.key e.op e.values)
    pure (fromLabels ++ fromExprs)

/-- Matching of one requirement against a label map
(`labels.Requirement.Matches`). -/
def requirementMatches (ls : List (String × String)) (r : Requirement) : Bool :=
  match r.op with
  | .opIn =>
    match labelGet ls r.key with
    | none => false
    | some v => r.values.contains v
  | .opNotIn =>
    match labelGet ls r.key with
    | none => true
    | some v => !(r.values.contains v)
  | .opExistsOp => labelHas ls r.key
  | .opDoesNotExistOp => !(labelHas ls r.key)
  | .opUnknown => false

/-- Matching of a parsed selector: every requirement must hold
(`internalSelector.Matches`). -/
def selectorMatches (sel : List Requirement) (ls : List (String × String)) : Bool :=
  sel.all (requirementMatches ls)

/-- Spec of a Machine: the owning cluster's name
(only the fields the controller reads). -/
structure MachineSpec where
  clusterName : String
deriving DecidableEq, Repr

/-- A Machine object: metadata, spec, creation timestamp and the optional
node reference name from `status.nodeRef`. -/
structure Machine where
  meta : ObjectMeta
  spec : MachineSpec
  creationTimestamp : Int
  nodeRefName : Option String
deriving DecidableEq, Repr

/-- One unhealthy-condition rule of a MachineHealthCheck spec:
condition type, required status and timeout. -/
structure UnhealthyCondition where
  condType : String
  status : String
  timeout : Int
deriving DecidableEq, Repr

/-- Spec of a MachineHealthCheck: target cluster name, label selector,
unhealthy-condition rules and optional node-startup timeout. -/
structure MachineHealthCheckSpec where
  clusterName : String
  selector : LabelSelector
  unhealthyConditions : List UnhealthyCondition
  nodeStartupTimeout : Option Int
deriving DecidableEq, Repr

/-- Status block of a MachineHealthCheck: expected and currently-healthy
machine counts. -/
structure MachineHealthCheckStatus where
  expectedMachines : Nat
  currentHealthy : Nat
deriving DecidableEq, Repr

/-- An owner reference entry (kind, name, uid of the owner). -/
structure OwnerReference where
  kind : String
  name : String
  uid : String
deriving DecidableEq, Repr

/-- A MachineHealthCheck object.  `pausedAnnot` records whether the
object carries the pause annotation consulted by `util.IsPaused`. -/
structure MachineHealthCheck where
  meta : ObjectMeta
  spec : MachineHealthCheckSpec
  status : MachineHealthCheckStatus
  ownerReferences : List OwnerReference
  pausedAnnot : Bool
deriving DecidableEq, Repr

/-- A Cluster object: identity and the spec pause flag. -/
structure Cluster where
  ns : String
  name : String
  uid : String
  paused : Bool
deriving DecidableEq, Repr

/-- hasMatchingLabels: the MachineHealthCheck's selector is parsed; a parse
failure matches nothing, an empty parsed selector matches nothing, otherwise
the machine's labels are matched against the selector. -/
def hasMatchingLabels (machineHealthCheck : MachineHealthCheck)
    (machine : Machine) : Bool :=
  match labelSelectorAsSelector machineHealthCheck.spec.selector with
  | none => false
  | some selector =>
    if selector.isEmpty then false
    else if !(selectorMatches selector machine.meta.labels) then false
    else true

/-- indexMachineByNodeName: a Machine is indexed under the name of its node
reference when it has one, and under nothing otherwise. -/
def indexMachineByNodeName (machine : Machine) : List String :=
  match machine.nodeRefName with
  | some nodeRefName => [nodeRefName]
  | none => []

/-- indexMachineHealthCheckByClusterName: a MachineHealthCheck is indexed
under its spec's cluster name. -/
def indexMachineHealthCheckByClusterName (mhc : MachineHealthCheck) : List String :=
  [mhc.spec.clusterName]

/-- Contents of the management cluster's cached object store, as seen by the
controller's `List` calls. -/
structure Store where
  machines : List Machine
  mhcs : List MachineHealthCheck
deriving Repr

/-- A `List` of Machines filtered only by the node-name index
(`client.MatchingFields{machineNodeNameIndex: nodeName}` with no namespace
option): machines of every namespace are considered. -/
def listMachinesByNodeName (store : Store) (nodeName : String) : List Machine :=
  store.machines.filter (fun m => (indexMachineByNodeName m).contains nodeName)

/-- getMachineFromNode: list machines by the node-name index; any number of
matches other than exactly one is an error (modelled as `none`). -/
def getMachineFromNode (store : Store) (nodeName : String) : Option Machine :=
  let items := listMachinesByNodeName store nodeName
  if items.length ≠ 1 then none else items.head?

/-- A `List` of MachineHealthChecks restricted to a namespace and filtered by
the cluster-name index (`ListOptions{Namespace}` plus
`MatchingFields{mhcClusterNameIndex: clusterName}`). -/
def listMHCsByClusterName (store : Store) (ns clusterName : String) :
    List MachineHealthCheck :=
  store.mhcs.filter (fun mhc =>
    mhc.meta.ns == ns && (indexMachineHealthCheckByClusterName mhc).contains clusterName)

/-- machineToMachineHealthCheck: list the MachineHealthChecks of the
machine's namespace whose cluster-name index equals the machine's cluster
name, keep those whose selector matches, and return their keys. -/
def machineToMachineHealthCheck (store : Store) (m : Machine) :
    List NamespacedName :=
  ((listMHCsByClusterName store m.meta.ns m.spec.clusterName).filter
      (fun mhc => hasMatchingLabels mhc m)).map
    (fun mhc => ⟨mhc.meta.ns, mhc.meta.name⟩)

/-- nodeToMachineHealthCheck: resolve the machine owning the node via the
node-name index; a failed lookup yields no requests, otherwise the
MachineHealthChecks of the machine's namespace with matching cluster name
and selector are enqueued. -/
def nodeToMachineHealthCheck (store : Store) (nodeName : String) :
    List NamespacedName :=
  match getMachineFromNode store nodeName with
  | none => []
  | some machine =>
    ((listMHCsByClusterName store machine.meta.ns machine.spec.clusterName).filter
        (fun mhc => hasMatchingLabels mhc machine)).map
      (fun mhc => ⟨mhc.meta.ns, mhc.meta.name⟩)

/-- Error atoms of the pass, one per failing call site. -/
inductive ErrAtom
  | getErr
  | clusterErr
  | helperErr
  | clientBuildErr
  | restConfigErr
  | remoteClientErr
  | watchStartErr
  | targetsErr
  | patchFailedErr
deriving DecidableEq, Repr

/-- Errors are non-empty lists of atoms; `kerrors.NewAggregate` concatenates,
dropping a `nil` first component. -/
def errList : Option (List ErrAtom) → List ErrAtom
  | none => []
  | some es => es

/-- Aggregation of a possible earlier error with a patch error
(`kerrors.NewAggregate([]error{reterr, err})` with `err ≠ nil`). -/
def newAggregate (reterr : Option (List ErrAtom)) (e : ErrAtom) :
    Option (List ErrAtom) :=
  some (errList reterr ++ [e])

/-- Outcomes of the external calls made by watchClusterNodes. -/
structure WatchEnv where
  restConfigOk : Bool
  remoteClientOk : Bool
  watchOk : Bool
deriving DecidableEq, Repr

/-- Registry key used by watchClusterNodes: the cluster's name is used for
both the namespace and the name component. -/
def watchKey (cluster : Cluster) : NamespacedName :=
  ⟨cluster.name, cluster.name⟩

/-- Result of one watchClusterNodes call: the registry afterwards, the
returned error, and how many background node informers were started. -/
structure WatchOutcome where
  registry : List NamespacedName
  err : Option ErrAtom
  informersStarted : Nat
deriving DecidableEq, Repr

/-- watchClusterNodes: no-op when the registry already holds the cluster's
key; otherwise build the remote REST config and client (either failure is
returned with the registry untouched), start the background node informer,
register the watch (failure returned with the registry untouched), and only
then record the key in the registry. -/
def watchClusterNodes (env : WatchEnv) (registry : List NamespacedName)
    (cluster : Cluster) : WatchOutcome :=
  let key := watchKey cluster
  if key ∈ registry then ⟨registry, none, 0⟩
  else if !env.restConfigOk then ⟨registry, some .restConfigErr, 0⟩
  else if !env.remoteClientOk then ⟨registry, some .remoteClientErr, 0⟩
  else if !env.watchOk then ⟨registry, some .watchStartErr, 1⟩
  else ⟨registry ++ [key], none, 1⟩

/-- A node status condition: type, status and last transition time. -/
structure NodeCondition where
  condType : String
  status : String
  lastTransitionTime : Int
deriving DecidableEq, Repr

/-- A Node of the target cluster: name and status conditions. -/
structure Node where
  name : String
  conditions : List NodeCondition
deriving DecidableEq, Repr

/-- A health-check target: a machine and the node it resolved to, if any. -/
structure Target where
  machine : Machine
  node : Option Node
deriving DecidableEq, Repr

/-- Verdict of the health evaluation of one target. -/
inductive Verdict
  | healthy
  | unhealthy
  | needsCheck (remaining : Int)
deriving DecidableEq, Repr

/-- Modelled from the spec: the per-target health classification of the
Health Evaluator (`healthCheckTarget`, whose body lives outside the sources
at hand).  A target with no node is unhealthy once the machine's age reaches
the node-startup timeout and otherwise not yet decidable with the remaining
startup time; a target with a node is classified by the first
unhealthy-condition rule whose type and status match a current node
condition (unhealthy once the condition has persisted for the rule's
timeout, otherwise not yet decidable with the remaining time); a target
whose node matches no rule is healthy. -/
def healthCheckTarget (rules : List UnhealthyCondition)
    (now timeoutForMachineToHaveNode : Int) (t : Target) : Verdict :=
  match t.node with
  | none =>
    let age := now - t.machine.creationTimestamp
    if timeoutForMachineToHaveNode ≤ age then .unhealthy
    else .needsCheck (timeoutForMachineToHaveNode - age)
  | some node =>
    match rules.findSome? (fun rule =>
        (node.conditions.find? (fun c =>
            c.condType == rule.condType && c.status == rule.status)).map
          (fun c => (rule, c))) with
    | none => .healthy
    | some (rule, cond) =>
      let elapsed := now - cond.lastTransitionTime
      if rule.timeout ≤ elapsed then .unhealthy
      else .needsCheck (rule.timeout - elapsed)

/-- Modelled from the spec: the aggregation step of the Health Evaluator
(`healthCheckTargets`, outside the sources at hand): count of healthy
targets, list of targets needing remediation, and the remaining times of the
not-yet-decidable targets. -/
def healthCheckTargets (rules : List UnhealthyCondition)
    (now timeoutForMachineToHaveNode : Int) :
    List Target → Nat × List Target × List Int
  | [] => (0, [], [])
  | t :: ts =>
    let acc := healthCheckTargets rules now timeoutForMachineToHaveNode ts
    match healthCheckTarget rules now timeoutForMachineToHaveNode t with
    | .healthy => (acc.1 + 1, acc.2.1, acc.2.2)
    | .unhealthy => (acc.1, t :: acc.2.1, acc.2.2)
    | .needsCheck d => (acc.1, acc.2.1, d :: acc.2.2)

/-- Modelled from the spec: `minDuration` (outside the sources at hand)
returns the minimum of a duration list and zero for the empty list; the
caller requeues only when the result is positive. -/
def minDuration : List Int → Int
  | [] => 0
  | d :: ds => ds.foldl min d

/-- Default node-startup timeout: 10 minutes in nanoseconds. -/
def defaultNodeStartupTimeout : Int := 10 * 60 * 1000000000

/-- Label key forced onto every reconciled MachineHealthCheck
(`clusterv1.ClusterLabelName`). -/
def clusterLabelName : String := "cluster.x-k8s.io/cluster-name"

/-- Insertion or update of a key in a label map (`m.Labels[k] = v`). -/
def labelSet (ls : List (String × String)) (key value : String) :
    List (String × String) :=
  if labelHas ls key then
    ls.map (fun p => if p.1 == key then (p.1, value) else p)
  else ls ++ [(key, value)]

/-- Modelled from the spec: `util.EnsureOwnerRef` (outside the sources at
hand) idempotently ensures the owner reference is present, appending it only
when missing. -/
def ensureOwnerRef (refs : List OwnerReference) (ref : OwnerReference) :
    List OwnerReference :=
  if refs.contains ref then refs else refs ++ [ref]

/-- Owner reference the controller sets, pointing at the target Cluster. -/
def clusterOwnerRef (cluster : Cluster) : OwnerReference :=
  ⟨"Cluster", cluster.name, cluster.uid⟩

/-- Modelled from the spec: `util.IsPaused` (outside the sources at hand)
holds when the Cluster's spec pause flag is set or the object carries the
pause annotation. -/
def isPaused (cluster : Cluster) (m : MachineHealthCheck) : Bool :=
  cluster.paused || m.pausedAnnot

/-- The controller-runtime result: an optional requeue delay
(`ctrl.Result{RequeueAfter: d}`; `none` models the zero result). -/
structure CtrlResult where
  requeueAfter : Option Int
deriving DecidableEq, Repr

/-- Observable actions of a reconciliation pass, in order of occurrence. -/
inductive Effect
  | ensureOwnerRefE
  | setClusterLabelE
  | clientBuildE
  | watchSetupE
  | resolveTargetsE
  | statusWriteE
  | patchAttemptE
deriving DecidableEq, Repr

/-- Outcome of fetching the MachineHealthCheck at the start of the pass. -/
inductive FetchMHC
  | notFound
  | fetchError
  | found
deriving DecidableEq, Repr

/-- Environment of one reconciliation pass: the fetched objects and the
outcomes of every fallible external call the pass makes. -/
structure ReconcileEnv where
  fetchMHC : FetchMHC
  m0 : MachineHealthCheck
  cluster : Cluster
  getClusterOk : Bool
  newHelperOk : Bool
  patchOk : Bool
  clusterClientOk : Bool
  watchEnv : WatchEnv
  targetsResult : Option (List Target)
  now : Int
deriving Repr

/-- Full outcome of a pass: the returned result and error, the error as it
stood when the deferred patch ran (`bodyErr`), the object as last mutated,
the watch registry afterwards, and the effect trace. -/
structure ReconcileOutcome where
  result : CtrlResult
  reterr : Option (List ErrAtom)
  bodyErr : Option (List ErrAtom)
  finalM : Option MachineHealthCheck
  registry : List NamespacedName
  effects : List Effect
deriving Repr

/-- Inner business pass `reconcile`: ensure the owner reference, build the
target-cluster client, ensure the node watch, resolve targets, write the
status counts, and compute the requeue delay from the minimum positive
next-check duration. -/
def reconcileInner (env : ReconcileEnv) (registry : List NamespacedName)
    (cluster : Cluster) (m : MachineHealthCheck) :
    CtrlResult × Option (List ErrAtom) × MachineHealthCheck ×
      List NamespacedName × List Effect :=
  let m1 := { m with
    ownerReferences := ensureOwnerRef m.ownerReferences (clusterOwnerRef cluster) }
  if !env.clusterClientOk then
    (⟨none⟩, some [.clientBuildErr], m1, registry,
      [.ensureOwnerRefE, .clientBuildE])
  else
    let w := watchClusterNodes env.watchEnv registry cluster
    match w.err with
    | some e =>
      (⟨none⟩, some [e], m1, w.registry,
        [.ensureOwnerRefE, .clientBuildE, .watchSetupE])
    | none =>
      match env.targetsResult with
      | none =>
        (⟨none⟩, some [.targetsErr], m1, w.registry,
          [.ensureOwnerRefE, .clientBuildE, .watchSetupE, .resolveTargetsE])
      | some targets =>
        let m2 := { m1 with
          status := { m1.status with expectedMachines := targets.length } }
        let timeoutForMachineToHaveNode :=
          (m2.spec.nodeStartupTimeout).getD defaultNodeStartupTimeout
        let hc := healthCheckTargets m2.spec.unhealthyConditions env.now
          timeoutForMachineToHaveNode targets
        let m3 := { m2 with
          status := { m2.status with currentHealthy := hc.1 } }
        let effs : List Effect :=
          [.ensureOwnerRefE, .clientBuildE, .watchSetupE, .resolveTargetsE,
            .statusWriteE]
        if 0 < minDuration hc.2.2 then
          (⟨some (minDuration hc.2.2)⟩, none, m3, w.registry, effs)
        else
          (⟨none⟩, none, m3, w.registry, effs)

/-- Outer pass `Reconcile`: fetch the object (absent is a benign no-op, a
fetch error is returned), fetch the Cluster, return early when paused, build
the patch helper, install the deferred patch, force the cluster label, run
the inner pass, and on return run the deferred patch exactly once,
aggregating a patch failure with any earlier error. -/
def Reconcile (env : ReconcileEnv) (registry : List NamespacedName) :
    ReconcileOutcome :=
  match env.fetchMHC with
  | .notFound => ⟨⟨none⟩, none, none, none, registry, []⟩
  | .fetchError =>
    ⟨⟨none⟩, some [.getErr], some [.getErr], none, registry, []⟩
  | .found =>
    let m := env.m0
    if !env.getClusterOk then
      ⟨⟨none⟩, some [.clusterErr], some [.clusterErr], some m, registry, []⟩
    else if isPaused env.cluster m then
      ⟨⟨none⟩, none, none, some m, registry, []⟩
    else if !env.newHelperOk then
      ⟨⟨none⟩, some [.helperErr], some [.helperErr], some m, registry, []⟩
    else
      let m1 := { m with
        meta := { m.meta with
          labels := labelSet m.meta.labels clusterLabelName m.spec.clusterName } }
      let inner := reconcileInner env registry env.cluster m1
      let bodyResult := if inner.2.1.isSome then (⟨none⟩ : CtrlResult) else inner.1
      let bodyErr := inner.2.1
      let reterr := if env.patchOk then bodyErr else newAggregate bodyErr .patchFailedErr
      ⟨bodyResult, reterr, bodyErr, some inner.2.2.1, inner.2.2.2.1,
        [.setClusterLabelE] ++ inner.2.2.2.2 ++ [.patchAttemptE]⟩

/-- Atomic phases of one thread running watchClusterNodes with no lock held:
phase 0 reads the shared `clusterNodeInformers` map (the check), phase 1
starts the background informer and inserts the key into the shared map (the
act), phase 2 is the return.  The environment is the all-successful one. -/
def wcnThreadStep (key : NamespacedName) (pc : Nat)
    (registry : List NamespacedName) (started : Nat) :
    Nat × List NamespacedName × Nat :=
  match pc with
  | 0 => if key ∈ registry then (2, registry, started) else (1, registry, started)
  | 1 => (2, registry ++ [key], started + 1)
  | _ => (pc, registry, started)

/-- Shared state of two concurrent watchClusterNodes invocations for the
same key: the registry, the number of informers started so far, and the two
threads' program counters. -/
structure RaceState where
  registry : List NamespacedName
  started : Nat
  pcA : Nat
  pcB : Nat
deriving DecidableEq, Repr

/-- One scheduler step: run the chosen thread's next atomic action against
the shared state. -/
def raceStep (key : NamespacedName) (s : RaceState) (runA : Bool) : RaceState :=
  if runA then
    let r := wcnThreadStep key s.pcA s.registry s.started
    { s with pcA := r.1, registry := r.2.1, started := r.2.2 }
  else
    let r := wcnThreadStep key s.pcB s.registry s.started
    { s with pcB := r.1, registry := r.2.1, started := r.2.2 }

/-- Execution of a schedule (list of thread choices, `true` = thread A) from
an initial shared state. -/
def runRace (key : NamespacedName) (sched : List Bool) (s : RaceState) :
    RaceState :=
  sched.foldl (raceStep key) s

/-- Environment in which every external call of the watch setup succeeds. -/
def watchEnvOk : WatchEnv := ⟨true, true, true⟩

/-- Environment in which registering the watch with the controller fails. -/
def watchEnvWatchFails : WatchEnv := ⟨true, true, false⟩

/-- Sample unpaused cluster. -/
def clusterUnpaused : Cluster := ⟨"ns1", "c1", "u1", false⟩

/-- Sample paused cluster. -/
def clusterPausedSample : Cluster := ⟨"ns1", "c1", "u1", true⟩

/-- Sample policy: one match label, no unhealthy-condition rules, default
node-startup timeout. -/
def mhcSample : MachineHealthCheck :=
  ⟨⟨"ns1", "hc1", []⟩, ⟨"c1", ⟨[("role", "worker")], []⟩, [], none⟩,
    ⟨0, 0⟩, [], false⟩

/-- Sample policy with an empty selector. -/
def mhcEmptySelector : MachineHealthCheck :=
  ⟨⟨"ns1", "hc2", []⟩, ⟨"c1", ⟨[], []⟩, [], none⟩, ⟨0, 0⟩, [], false⟩

/-- Sample labelled machine referencing node n1. -/
def machineLabelled : Machine :=
  ⟨⟨"ns1", "m1", [("role", "worker")]⟩, ⟨"c1"⟩, 0, some "n1"⟩

/-- Store with one machine on node n1 and one matching policy. -/
def storeC3 : Store := ⟨[machineLabelled], [mhcSample]⟩

/-- Two machines in different namespaces referencing the same node name. -/
def machineNsA : Machine := ⟨⟨"nsA", "m1", []⟩, ⟨"c1"⟩, 0, some "n1"⟩

/-- Second machine of the cross-namespace pair. -/
def machineNsB : Machine := ⟨⟨"nsB", "m2", []⟩, ⟨"c1"⟩, 0, some "n1"⟩

/-- Store holding the cross-namespace machine pair. -/
def storeC10 : Store := ⟨[machineNsA, machineNsB], []⟩

/-- Clusters sharing a name across namespaces. -/
def clusterNsA : Cluster := ⟨"nsA", "c1", "u1", false⟩

/-- Second cluster of the same-name pair. -/
def clusterNsB : Cluster := ⟨"nsB", "c1", "u2", false⟩

/-- Target whose machine was created at the given time and has no node. -/
def targetNoNode (created : Int) : Target :=
  ⟨⟨⟨"ns1", "m", []⟩, ⟨"c1"⟩, created, none⟩, none⟩

/-- Target whose machine resolved to a node with no conditions. -/
def targetWithNode : Target :=
  ⟨⟨⟨"ns1", "m2", []⟩, ⟨"c1"⟩, 0, some "n1"⟩, some ⟨"n1", []⟩⟩

/-- Environment refuting C1 as stated: the policy fetch succeeds and
nothing is paused, but the cluster fetch fails. -/
def envC1bad : ReconcileEnv :=
  ⟨.found, mhcSample, clusterUnpaused, false, true, true, true, watchEnvOk,
    some [], 0⟩

/-- Environment exercising the amended C1: the body fails at target
resolution and the deferred patch also fails. -/
def envC1good : ReconcileEnv :=
  ⟨.found, mhcSample, clusterUnpaused, true, true, false, true, watchEnvOk,
    none, 0⟩

/-- Environment whose targets yield next-check durations of 5s, 12s and 3s. -/
def envC4 : ReconcileEnv :=
  ⟨.found, mhcSample, clusterUnpaused, true, true, true, true, watchEnvOk,
    some [targetNoNode 105000000000, targetNoNode 112000000000,
      targetNoNode 103000000000],
    700000000000⟩

/-- Environment with one not-yet-decidable and one healthy target. -/
def envC5 : ReconcileEnv :=
  ⟨.found, mhcSample, clusterUnpaused, true, true, true, true, watchEnvOk,
    some [targetNoNode 103000000000, targetWithNode], 700000000000⟩

/-- Environment whose cluster is paused. -/
def envC6 : ReconcileEnv :=
  ⟨.found, mhcSample, clusterPausedSample, true, true, true, true, watchEnvOk,
    some [], 0⟩

/-- Running the two phases of one thread back to back reproduces exactly the
registry and informer count of `watchClusterNodes` in the all-successful
environment, so the interleaved model is a faithful split of the function. -/
theorem wcnThreadStep_refines_watchClusterNodes
    (registry : List NamespacedName) (cluster : Cluster) :
    (let s1 := wcnThreadStep (watchKey cluster) 0 registry 0
     let s2 := wcnThreadStep (watchKey cluster) s1.1 s1.2.1 s1.2.2
     (s2.2.1, s2.2.2)) =
    ((watchClusterNodes ⟨true, true, true⟩ registry cluster).registry,
     (watchClusterNodes ⟨true, true, true⟩ registry cluster).informersStarted) := by
  by_cases hk : watchKey cluster ∈ registry <;>
    simp [wcnThreadStep, watchClusterNodes, hk]

/-- The fold computing `minDuration` returns an element of the list headed
by the accumulator. -/
theorem foldl_min_mem (ds : List Int) :
    ∀ d : Int, ds.foldl min d ∈ d :: ds := by
  induction ds with
  | nil => intro d; simp
  | cons x xs ih =>
    intro d
    have h := ih (min d x)
    simp only [List.foldl_cons]
    rcases List.mem_cons.1 h with h1 | h1
    · rcases min_choice d x with hm | hm
      · rw [h1, hm]; exact List.mem_cons_self _ _
      · rw [h1, hm]
        exact List.mem_cons_of_mem _ (List.mem_cons_self _ _)
    · exact List.mem_cons_of_mem _ (List.mem_cons_of_mem _ h1)

/-- The fold computing `minDuration` is a lower bound of the accumulator and
every list element. -/
theorem foldl_min_le (ds : List Int) :
    ∀ d : Int, ∀ x ∈ d :: ds, ds.foldl min d ≤ x := by
  induction ds with
  | nil =>
    intro d x hx
    simp only [List.foldl_nil]
    rcases List.mem_cons.1 hx with h | h
    · exact le_of_eq h.symm
    · simp at h
  | cons y ys ih =>
    intro d x hx
    simp only [List.foldl_cons]
    rcases List.mem_cons.1 hx with h | h
    · rw [h]
      exact le_trans (ih (min d y) _ (List.mem_cons_self _ _)) (min_le_left _ _)
    · rcases List.mem_cons.1 h with h2 | h2
      · rw [h2]
        exact le_trans (ih (min d y) _ (List.mem_cons_self _ _)) (min_le_right _ _)
      · exact ih (min d y) x (List.mem_cons_of_mem _ h2)

/-- On a non-empty list, `minDuration` returns a member that bounds every
element from below. -/
theorem minDuration_spec (l : List Int) (hne : l ≠ []) :
    minDuration l ∈ l ∧ ∀ x ∈ l, minDuration l ≤ x := by
  cases l with
  | nil => exact absurd rfl hne
  | cons d ds =>
    exact ⟨foldl_min_mem ds d, fun x hx => foldl_min_le ds d x hx⟩

/-- A not-yet-decidable verdict always carries a strictly positive remaining
time: it is only produced while the relevant timeout has not yet elapsed. -/
theorem healthCheckTarget_needsCheck_pos (rules : List UnhealthyCondition)
    (now tmo : Int) (t : Target) (d : Int)
    (h : healthCheckTarget rules now tmo t = .needsCheck d) : 0 < d := by
  simp only [healthCheckTarget] at h
  split at h
  · split at h
    · simp at h
    · rename_i hle
      simp only [Verdict.needsCheck.injEq] at h
      omega
  · split at h
    · simp at h
    · split at h
      · simp at h
      · rename_i hle
        simp only [Verdict.needsCheck.injEq] at h
        omega

/-- Every next-check duration aggregated by the evaluator is strictly
positive. -/
theorem healthCheckTargets_pos (rules : List UnhealthyCondition)
    (now tmo : Int) (targets : List Target) :
    ∀ d ∈ (healthCheckTargets rules now tmo targets).2.2, 0 < d := by
  induction targets with
  | nil => simp [healthCheckTargets]
  | cons t ts ih =>
    intro d hd
    simp only [healthCheckTargets] at hd
    cases hv : healthCheckTarget rules now tmo t with
    | healthy =>
      simp only [hv] at hd
      exact ih d hd
    | unhealthy =>
      simp only [hv] at hd
      exact ih d hd
    | needsCheck d' =>
      simp only [hv] at hd
      rcases List.mem_cons.1 hd with h | h
      · subst h
        exact healthCheckTarget_needsCheck_pos rules now tmo t d hv
      · exact ih d h

/-- The healthy count aggregated by the evaluator never exceeds the number
of targets. -/
theorem healthCheckTargets_healthy_le (rules : List UnhealthyCondition)
    (now tmo : Int) (targets : List Target) :
    (healthCheckTargets rules now tmo targets).1 ≤ targets.length := by
  induction targets with
  | nil => simp [healthCheckTargets]
  | cons t ts ih =>
    simp only [healthCheckTargets, List.length_cons]
    cases healthCheckTarget rules now tmo t <;> simp only [] <;> omega

/-- The inner pass never records a patch attempt: patching happens only in
the outer pass's deferred block. -/
theorem reconcileInner_no_patch_effect (env : ReconcileEnv)
    (registry : List NamespacedName) (cluster : Cluster)
    (m : MachineHealthCheck) :
    Effect.patchAttemptE ∉ (reconcileInner env registry cluster m).2.2.2.2 := by
  unfold reconcileInner
  cases hc : env.clusterClientOk
  · simp
  · simp only [Bool.not_true, Bool.false_eq_true, if_false]
    cases hw : (watchClusterNodes env.watchEnv registry cluster).err
    · cases ht : env.targetsResult
      · simp
      · simp only []
        split <;> simp
    · simp

/-- C2: for every policy and every machine, a policy whose label selector
fails to parse or is empty (no match labels and no match expressions) is
matched against no machine: hasMatchingLabels returns false, never
true-for-everything. -/
theorem c2_empty_or_unparseable_selector_matches_nothing
    (mhc : MachineHealthCheck) (machine : Machine)
    (h : labelSelectorAsSelector mhc.spec.selector = none ∨
      (mhc.spec.selector.matchLabels = [] ∧
        mhc.spec.selector.matchExpressions = [])) :
    hasMatchingLabels mhc machine = false := by
  rcases h with h | ⟨h1, h2⟩
  · simp [hasMatchingLabels, h]
  · have hsel : labelSelectorAsSelector mhc.spec.selector = some [] := by
      simp only [labelSelectorAsSelector, h1, h2]
      rfl
    simp [hasMatchingLabels, hsel]

/-- Witness for C2: the concrete empty-selector policy matches no machine,
even a labelled one. -/
theorem c2_empty_selector_witness :
    hasMatchingLabels mhcEmptySelector machineLabelled = false :=
  c2_empty_or_unparseable_selector_matches_nothing mhcEmptySelector
    machineLabelled (Or.inr ⟨rfl, rfl⟩)

/-- C3: node-event routing first resolves the owning machine through the
node-name index; when that lookup does not yield exactly one machine the
router returns the empty request set, and when it yields exactly one
machine the router produces exactly the machine-to-policies mapping
(namespace and cluster-name index filter plus label-selector match). -/
theorem c3_node_routing_delegates_or_empty (store : Store) (nodeName : String) :
    ((listMachinesByNodeName store nodeName).length ≠ 1 →
      nodeToMachineHealthCheck store nodeName = []) ∧
    (∀ m, getMachineFromNode store nodeName = some m →
      nodeToMachineHealthCheck store nodeName =
        machineToMachineHealthCheck store m) := by
  constructor
  · intro h
    simp [nodeToMachineHealthCheck, getMachineFromNode, h]
  · intro m hm
    simp [nodeToMachineHealthCheck, hm, machineToMachineHealthCheck]

/-- Witness for C3: with exactly one machine on node n1 the router equals
the machine-to-policies mapping, and an unknown node yields no requests. -/
theorem c3_node_routing_witness :
    nodeToMachineHealthCheck storeC3 "n1" =
      machineToMachineHealthCheck storeC3 machineLabelled ∧
    nodeToMachineHealthCheck storeC3 "missing" = [] :=
  ⟨(c3_node_routing_delegates_or_empty storeC3 "n1").2 machineLabelled
      (by decide),
   (c3_node_routing_delegates_or_empty storeC3 "missing").1 (by decide)⟩

/-- C10: the node-to-machine lookup filters only by the node-name index with
no namespace restriction, so machines of every namespace are considered;
when machines in two different namespaces reference the same node name the
lookup is not-exactly-one and errors, and the node event yields no
reconciliation requests. -/
theorem c10_cross_namespace_lookup (store : Store) (n : String)
    (m1 m2 : Machine) (h1 : m1 ∈ store.machines) (h2 : m2 ∈ store.machines)
    (hns : m1.meta.ns ≠ m2.meta.ns)
    (hr1 : m1.nodeRefName = some n) (hr2 : m2.nodeRefName = some n) :
    m1 ∈ listMachinesByNodeName store n ∧
    m2 ∈ listMachinesByNodeName store n ∧
    getMachineFromNode store n = none ∧
    nodeToMachineHealthCheck store n = [] := by
  have hm1 : m1 ∈ listMachinesByNodeName store n := by
    refine List.mem_filter.2 ⟨h1, ?_⟩
    simp [indexMachineByNodeName, hr1]
  have hm2 : m2 ∈ listMachinesByNodeName store n := by
    refine List.mem_filter.2 ⟨h2, ?_⟩
    simp [indexMachineByNodeName, hr2]
  have hne : m1 ≠ m2 := fun he => hns (congrArg (fun m => m.meta.ns) he)
  have hlen : (listMachinesByNodeName store n).length ≠ 1 := by
    intro hl
    obtain ⟨x, hx⟩ := List.length_eq_one.1 hl
    rw [hx] at hm1 hm2
    simp only [List.mem_singleton] at hm1 hm2
    exact hne (hm1.trans hm2.symm)
  have hg : getMachineFromNode store n = none := by
    simp only [getMachineFromNode]
    rw [if_pos hlen]
  refine ⟨hm1, hm2, hg, ?_⟩
  simp [nodeToMachineHealthCheck, hg]

/-- Witness for C10 on the concrete cross-namespace machine pair. -/
theorem c10_cross_namespace_witness :
    getMachineFromNode storeC10 "n1" = none ∧
    nodeToMachineHealthCheck storeC10 "n1" = [] := by
  have h := c10_cross_namespace_lookup storeC10 "n1" machineNsA machineNsB
    (by decide) (by decide) (by decide) rfl rfl
  exact ⟨h.2.2.1, h.2.2.2⟩

/-- C7: the watch-ensuring operation is a no-op when the cluster's key is
already registered; on a new key, a failing remote-config build returns the
REST-config error, a failing remote-client build returns the client error,
and a failing watch registration returns the watch error — each with the
registry left unmodified — and only the fully successful path starts a new
watch and appends exactly the cluster's key to the registry (so the registry
changes only with a successful start and no error). -/
theorem c7_watch_registry_no_partial_registration (env : WatchEnv)
    (registry : List NamespacedName) (cluster : Cluster) :
    (watchKey cluster ∈ registry →
      watchClusterNodes env registry cluster = ⟨registry, none, 0⟩) ∧
    (watchKey cluster ∉ registry →
      (env.restConfigOk = false →
        watchClusterNodes env registry cluster =
          ⟨registry, some ErrAtom.restConfigErr, 0⟩) ∧
      (env.restConfigOk = true → env.remoteClientOk = false →
        watchClusterNodes env registry cluster =
          ⟨registry, some ErrAtom.remoteClientErr, 0⟩) ∧
      (env.restConfigOk = true → env.remoteClientOk = true →
        env.watchOk = false →
        watchClusterNodes env registry cluster =
          ⟨registry, some ErrAtom.watchStartErr, 1⟩) ∧
      (env.restConfigOk = true → env.remoteClientOk = true →
        env.watchOk = true →
        watchClusterNodes env registry cluster =
          ⟨registry ++ [watchKey cluster], none, 1⟩)) ∧
    ((watchClusterNodes env registry cluster).registry ≠ registry →
      (watchClusterNodes env registry cluster).err = none ∧
      (watchClusterNodes env registry cluster).registry =
        registry ++ [watchKey cluster] ∧
      (watchClusterNodes env registry cluster).informersStarted = 1) := by
  by_cases hk : watchKey cluster ∈ registry <;>
    cases hrc : env.restConfigOk <;>
    cases hcl : env.remoteClientOk <;>
    cases hw : env.watchOk <;>
    simp_all [watchClusterNodes]

/-- Witness for C7: a failing watch registration on a fresh key returns the
watch error with the registry still empty, and a second call for an
already-registered key is a no-op. -/
theorem c7_watch_registry_witness :
    watchClusterNodes watchEnvWatchFails [] clusterUnpaused =
      ⟨[], some ErrAtom.watchStartErr, 1⟩ ∧
    watchClusterNodes watchEnvOk [watchKey clusterUnpaused] clusterUnpaused =
      ⟨[watchKey clusterUnpaused], none, 0⟩ :=
  ⟨(((c7_watch_registry_no_partial_registration watchEnvWatchFails []
        clusterUnpaused).2.1 (List.not_mem_nil _)).2.2.1 rfl rfl rfl),
   (c7_watch_registry_no_partial_registration watchEnvOk
     [watchKey clusterUnpaused] clusterUnpaused).1 (List.mem_singleton.2 rfl)⟩

/-- A watch-ensuring call whose key is already registered is a no-op. -/
theorem watchClusterNodes_mem (env : WatchEnv) (registry : List NamespacedName)
    (cluster : Cluster) (h : watchKey cluster ∈ registry) :
    watchClusterNodes env registry cluster = ⟨registry, none, 0⟩ := by
  simp [watchClusterNodes, h]

/-- C9: the registry key uses the cluster's name for both of its components,
so two clusters sharing a name in different namespaces map to the same
registry entry, and after a successful watch-ensuring call for the first
cluster the call for the second is a no-op. -/
theorem c9_same_name_shares_watch_entry (env1 env2 : WatchEnv)
    (registry : List NamespacedName) (c1 c2 : Cluster)
    (hname : c1.name = c2.name) (hns : c1.ns ≠ c2.ns)
    (hok : (watchClusterNodes env1 registry c1).err = none) :
    watchKey c1 = watchKey c2 ∧
    watchClusterNodes env2 (watchClusterNodes env1 registry c1).registry c2 =
      ⟨(watchClusterNodes env1 registry c1).registry, none, 0⟩ := by
  have hkey : watchKey c1 = watchKey c2 := by
    simp [watchKey, hname]
  have hmem : watchKey c1 ∈ (watchClusterNodes env1 registry c1).registry := by
    by_cases hk : watchKey c1 ∈ registry
    · simp [watchClusterNodes, hk]
    · cases hrc : env1.restConfigOk <;> cases hcl : env1.remoteClientOk <;>
        cases hw : env1.watchOk <;> simp_all [watchClusterNodes]
  rw [hkey] at hmem
  exact ⟨hkey, watchClusterNodes_mem env2 _ c2 hmem⟩

/-- Witness for C9: a watch started for cluster c1 in namespace nsA makes
the ensuring call for the same-named cluster in namespace nsB a no-op. -/
theorem c9_same_name_witness :
    watchClusterNodes watchEnvOk
        (watchClusterNodes watchEnvOk [] clusterNsA).registry clusterNsB =
      ⟨(watchClusterNodes watchEnvOk [] clusterNsA).registry, none, 0⟩ :=
  (c9_same_name_shares_watch_entry watchEnvOk watchEnvOk [] clusterNsA
    clusterNsB rfl (by decide) rfl).2

/-- C8: the claim says concurrent watch-ensuring calls for one cluster start
exactly one watch because the check-then-insert is guarded by mutual
exclusion, but watchClusterNodes takes no lock around the registry check and
insert (the reconciler struct has no mutex), so the interleaving in which
both threads pass the check before either registers starts two background
node informers and registers the key twice; the serialized schedule of the
same two calls starts exactly one. -/
theorem c8_unguarded_check_act_two_watches :
    (runRace ⟨"c1", "c1"⟩ [true, false, true, false]
        ⟨[], 0, 0, 0⟩).started = 2 ∧
    (runRace ⟨"c1", "c1"⟩ [true, false, true, false]
        ⟨[], 0, 0, 0⟩).registry = [⟨"c1", "c1"⟩, ⟨"c1", "c1"⟩] ∧
    (runRace ⟨"c1", "c1"⟩ [true, true, false, false]
        ⟨[], 0, 0, 0⟩).started = 1 := by
  refine ⟨rfl, rfl, rfl⟩

/-- C6: when the policy and its cluster are fetched successfully and either
is flagged paused, the pass performs no further work — no owner-reference
update, no label mutation, no watch setup, no target resolution, no status
write, no patch — and returns success with no requeue, leaving the object
and the registry untouched. -/
theorem c6_paused_returns_idle (env : ReconcileEnv)
    (registry : List NamespacedName)
    (hfound : env.fetchMHC = FetchMHC.found)
    (hclu : env.getClusterOk = true)
    (hpause : isPaused env.cluster env.m0 = true) :
    Reconcile env registry = ⟨⟨none⟩, none, none, some env.m0, registry, []⟩ := by
  simp [Reconcile, hfound, hclu, hpause]

/-- Witness for C6 on a concrete paused-cluster environment. -/
theorem c6_paused_witness :
    Reconcile envC6 [] = ⟨⟨none⟩, none, none, some mhcSample, [], []⟩ :=
  c6_paused_returns_idle envC6 [] rfl rfl rfl

/-- C1 (amended): in a pass where the policy fetch succeeds, the cluster
fetch succeeds, the pause check passes and the patch helper is built, the
deferred status patch runs exactly once whatever return path the body takes,
and a patch failure is aggregated after any earlier error of the pass
instead of replacing or dropping it. -/
theorem c1_patch_once_and_aggregated (env : ReconcileEnv)
    (registry : List NamespacedName)
    (hfound : env.fetchMHC = FetchMHC.found)
    (hclu : env.getClusterOk = true)
    (hpause : isPaused env.cluster env.m0 = false)
    (hhelper : env.newHelperOk = true) :
    (Reconcile env registry).effects.count Effect.patchAttemptE = 1 ∧
    (Reconcile env registry).reterr =
      (if env.patchOk then (Reconcile env registry).bodyErr
       else some (errList (Reconcile env registry).bodyErr ++
         [ErrAtom.patchFailedErr])) := by
  constructor
  · have h : (Reconcile env registry).effects =
        [Effect.setClusterLabelE] ++
          (reconcileInner env registry env.cluster
            { env.m0 with meta := { env.m0.meta with
                labels := labelSet env.m0.meta.labels clusterLabelName
                  env.m0.spec.clusterName } }).2.2.2.2 ++
          [Effect.patchAttemptE] := by
      simp [Reconcile, hfound, hclu, hpause, hhelper]
    rw [h, List.count_append, List.count_append,
      List.count_eq_zero.2 (reconcileInner_no_patch_effect _ _ _ _)]
    rfl
  · by_cases hp : env.patchOk <;>
      simp [Reconcile, hfound, hclu, hpause, hhelper, hp, newAggregate]

/-- Witness for the amended C1: the body fails resolving targets and the
patch fails too; the patch ran exactly once and the final error holds both
the body error and the patch error, in that order. -/
theorem c1_patch_once_witness :
    (Reconcile envC1good []).effects.count Effect.patchAttemptE = 1 ∧
    (Reconcile envC1good []).reterr =
      some [ErrAtom.targetsErr, ErrAtom.patchFailedErr] := by
  have h := c1_patch_once_and_aggregated envC1good [] rfl rfl rfl rfl
  refine ⟨h.1, ?_⟩
  rw [h.2]
  rfl

/-- Counterexample to C1 as stated: in this pass the policy fetch succeeds
and nothing is paused, yet because the cluster fetch fails the pass returns
before the deferred patch is installed, and no status patch runs at all. -/
theorem c1_no_patch_on_cluster_fetch_failure :
    envC1bad.fetchMHC = FetchMHC.found ∧
    isPaused envC1bad.cluster envC1bad.m0 = false ∧
    (Reconcile envC1bad []).effects.count Effect.patchAttemptE = 0 :=
  ⟨rfl, rfl, rfl⟩

/-- C4: in a pass that reaches health evaluation, a non-empty set of
next-check durations makes the pass requeue after the minimum of that set —
a member of the set, a lower bound of it, and strictly positive — while an
empty set schedules no requeue. -/
theorem c4_requeue_after_min_next_check (env : ReconcileEnv)
    (registry : List NamespacedName) (ts : List Target) (next : List Int)
    (hfound : env.fetchMHC = FetchMHC.found)
    (hclu : env.getClusterOk = true)
    (hpause : isPaused env.cluster env.m0 = false)
    (hhelper : env.newHelperOk = true)
    (hclient : env.clusterClientOk = true)
    (hwatch : (watchClusterNodes env.watchEnv registry env.cluster).err = none)
    (htargets : env.targetsResult = some ts)
    (hnext : next = (healthCheckTargets env.m0.spec.unhealthyConditions env.now
      (env.m0.spec.nodeStartupTimeout.getD defaultNodeStartupTimeout) ts).2.2) :
    (next = [] → (Reconcile env registry).result.requeueAfter = none) ∧
    (next ≠ [] →
      (Reconcile env registry).result.requeueAfter = some (minDuration next) ∧
      minDuration next ∈ next ∧ (∀ x ∈ next, minDuration next ≤ x) ∧
      0 < minDuration next) := by
  have hres : (Reconcile env registry).result =
      (if 0 < minDuration next then (⟨some (minDuration next)⟩ : CtrlResult)
       else ⟨none⟩) := by
    subst hnext
    by_cases hmin : 0 < minDuration ((healthCheckTargets
        env.m0.spec.unhealthyConditions env.now
        (env.m0.spec.nodeStartupTimeout.getD defaultNodeStartupTimeout) ts).2.2) <;>
      simp [Reconcile, reconcileInner, hfound, hclu, hpause, hhelper, hclient,
        hwatch, htargets, hmin]
  constructor
  · intro hempty
    rw [hres, hempty]
    simp [minDuration]
  · intro hne
    obtain ⟨hmem, hle⟩ := minDuration_spec next hne
    have hmem' := hmem
    rw [hnext] at hmem'
    have hpos : 0 < minDuration next := by
      rw [hnext]
      exact healthCheckTargets_pos _ _ _ _ _ hmem'
    refine ⟨?_, hmem, hle, hpos⟩
    rw [hres, if_pos hpos]

/-- Witness for C4 at next-check durations of 5s, 12s and 3s: the pass
requeues after 3s, the minimum. -/
theorem c4_requeue_witness :
    (Reconcile envC4 []).result.requeueAfter = some 3000000000 := by
  have h := c4_requeue_after_min_next_check envC4 []
    [targetNoNode 105000000000, targetNoNode 112000000000,
      targetNoNode 103000000000]
    [5000000000, 12000000000, 3000000000]
    rfl rfl rfl rfl rfl rfl rfl (by decide)
  have h2 := (h.2 (by decide)).1
  rw [h2]
  rfl

/-- C5: after a successful pass (everything fetched, not paused, clients and
watch established, targets resolved, patch succeeded), the final object's
status holds expected-machines equal to the number of resolved targets and
current-healthy equal to the number of targets classified healthy, with
current-healthy at most expected. -/
theorem c5_status_counts (env : ReconcileEnv) (registry : List NamespacedName)
    (ts : List Target)
    (hfound : env.fetchMHC = FetchMHC.found)
    (hclu : env.getClusterOk = true)
    (hpause : isPaused env.cluster env.m0 = false)
    (hhelper : env.newHelperOk = true)
    (hclient : env.clusterClientOk = true)
    (hwatch : (watchClusterNodes env.watchEnv registry env.cluster).err = none)
    (htargets : env.targetsResult = some ts)
    (hpatch : env.patchOk = true) :
    ∃ m', (Reconcile env registry).finalM = some m' ∧
      (Reconcile env registry).reterr = none ∧
      m'.status.expectedMachines = ts.length ∧
      m'.status.currentHealthy =
        (healthCheckTargets env.m0.spec.unhealthyConditions env.now
          (env.m0.spec.nodeStartupTimeout.getD defaultNodeStartupTimeout) ts).1 ∧
      m'.status.currentHealthy ≤ m'.status.expectedMachines := by
  have hfin : (Reconcile env registry).finalM = some
      { env.m0 with
        meta := { env.m0.meta with
          labels := labelSet env.m0.meta.labels clusterLabelName
            env.m0.spec.clusterName },
        ownerReferences := ensureOwnerRef env.m0.ownerReferences
          (clusterOwnerRef env.cluster),
        status := ⟨ts.length,
          (healthCheckTargets env.m0.spec.unhealthyConditions env.now
            (env.m0.spec.nodeStartupTimeout.getD defaultNodeStartupTimeout)
            ts).1⟩ } := by
    by_cases hmin : 0 < minDuration ((healthCheckTargets
        env.m0.spec.unhealthyConditions env.now
        (env.m0.spec.nodeStartupTimeout.getD defaultNodeStartupTimeout) ts).2.2) <;>
      simp [Reconcile, reconcileInner, hfound, hclu, hpause, hhelper, hclient,
        hwatch, htargets, hmin]
  have hret : (Reconcile env registry).reterr = none := by
    by_cases hmin : 0 < minDuration ((healthCheckTargets
        env.m0.spec.unhealthyConditions env.now
        (env.m0.spec.nodeStartupTimeout.getD defaultNodeStartupTimeout) ts).2.2) <;>
      simp [Reconcile, reconcileInner, hfound, hclu, hpause, hhelper, hclient,
        hwatch, htargets, hpatch, hmin]
  refine ⟨_, hfin, hret, rfl, rfl, ?_⟩
  exact healthCheckTargets_healthy_le _ _ _ _

/-- Witness for C5: one not-yet-decidable target and one healthy target give
expected 2, healthy 1, healthy at most expected. -/
theorem c5_status_counts_witness :
    ∃ m', (Reconcile envC5 []).finalM = some m' ∧
      (Reconcile envC5 []).reterr = none ∧
      m'.status.expectedMachines = 2 ∧
      m'.status.currentHealthy = 1 ∧
      m'.status.currentHealthy ≤ m'.status.expectedMachines := by
  obtain ⟨m', h1, h2, h3, h4, h5⟩ := c5_status_counts envC5 []
    [targetNoNode 103000000000, targetWithNode] rfl rfl rfl rfl rfl rfl rfl rfl
  refine ⟨m', h1, h2, by rw [h3]; rfl, by rw [h4]; rfl, h5⟩

end MHC
